import Mathlib

/-!
Shallow embedding of the event-coordination and approval state machine of
`src/main.rs` (a supervisory TUI that watches a working tree and gates an
agent's file edits behind an accept/reject review modal).

Modelling conventions:
* Paths are lists of components (`Path := List String`); `normalize_path` is
  modelled as the identity on already-canonical component lists, since
  canonicalisation is a filesystem operation.  The cache key derived from a
  path (`normalize_path(&path)` in `add_change`) is therefore the path itself.
* `std::time::Instant` values are natural numbers of milliseconds; the current
  instant is an explicit `now` argument, and `last.elapsed()` is `now - last`.
* `HashMap` / `HashSet` are association lists / lists with overwrite-on-insert
  (`upsert`) and remove-all (`removeKey` / `List.filter`) semantics.
* The disk is an association list from path to content; `read_to_string`
  succeeds exactly on present keys.  The `similar::TextDiff` line-diff engine
  is an external collaborator (per the spec's scope) and is passed in as an
  opaque function argument `diffFn : String → String → String`; no claim
  depends on the diff text it produces.
* Side effects of `reject` on the filesystem are reified as an ordered trace
  of `Effect`s, mirroring the statement order of the source.
-/

namespace AiTui

/-- Model of `ChangeKind` from `main.rs` lines 37-42. -/
inductive ChangeKind
  | Create
  | Modify
  | Remove
deriving DecidableEq, Repr

/-- Canonical filesystem paths, as component lists. -/
abbrev Path := List String

/-- Model of `path.file_name().and_then(to_str).unwrap_or("unknown")`: the last
component of the path, `"unknown"` when there is none. -/
def fileName (p : Path) : String := p.getLast?.getD "unknown"

/-- Model of `PendingChange` from `main.rs` lines 52-58. -/
structure PendingChange where
  path : Path
  old_content : String
  new_content : String
  diff_text : String
deriving DecidableEq, Repr

/-- A sidebar log entry (`FileChange` from `main.rs` lines 44-50, minus the
wall-clock timestamp, which no claim mentions). -/
structure FileChange where
  path : String
  kind : ChangeKind
  diff : Option String
deriving DecidableEq, Repr

/-- Association-list lookup (model of `HashMap::get`). -/
def lookupA {α β : Type} [DecidableEq α] : List (α × β) → α → Option β
  | [], _ => none
  | (k, v) :: rest, a => if k = a then some v else lookupA rest a

/-- Association-list key removal (model of `HashMap::remove`). -/
def removeKey {α β : Type} [DecidableEq α] : List (α × β) → α → List (α × β)
  | [], _ => []
  | (a, b) :: rest, k =>
    if a = k then removeKey rest k else (a, b) :: removeKey rest k

/-- Association-list insert-or-overwrite (model of `HashMap::insert`). -/
def upsert {α β : Type} [DecidableEq α] (l : List (α × β)) (k : α) (v : β) :
    List (α × β) :=
  (k, v) :: removeKey l k

/-- The snapshot cache: canonical path ↦ last-approved content. -/
abbrev Cache := List (Path × String)

/-- The disk: canonical path ↦ current content (present = readable). -/
abbrev Disk := List (Path × String)

/-- The mutable application state (`AppState` from `main.rs` lines 60-77,
minus the vt100 parser, which is an external collaborator). -/
structure AppState where
  file_changes : List FileChange
  debounce_map : List ((String × ChangeKind) × Nat)
  list_state : Option Nat
  show_sidebar : Bool
  file_cache : Cache
  approval_queue : List PendingChange
  ignore_next_write : List Path
  modal_active : Bool
  show_diff_view : Bool
deriving DecidableEq, Repr

/-- The runtime noise-directory filter (`main.rs` line 132): any component
equal to `.git`, `target` or `node_modules`. -/
def isNoise (path : Path) : Bool :=
  path.any (fun c => c == ".git" || c == "target" || c == "node_modules")

/-- Model of `file_name.starts_with('.')`: the first character is `.` (on
the character list underlying the string). -/
def startsWithDot (n : String) : Bool :=
  match n.data with
  | [] => false
  | c :: _ => c = '.'

/-- The dotfile filter (`main.rs` line 135): base name starts with `.` and is
not the allow-listed `.gitignore`. -/
def isHiddenName (n : String) : Bool := startsWithDot n && n != ".gitignore"

/-- The diff-output post-processing of `main.rs` lines 180-184 applied to the
raw diff text. -/
def finalizeDiff (raw : String) (new_content : String) : String :=
  if raw = "" && new_content ≠ "" then "+" ++ (new_content.replace "\n" "\n+")
  else if raw = "" then "No Content Changes"
  else raw

/-- Appending a sidebar log entry (`main.rs` lines 219-228): evict the oldest
(back) entry at capacity 50, push to the front, select index 0. -/
def pushSidebar (s : AppState) (name : String) (kind : ChangeKind)
    (d : Option String) : AppState :=
  let fcs := if 50 ≤ s.file_changes.length then s.file_changes.dropLast
             else s.file_changes
  { s with file_changes := ⟨name, kind, d⟩ :: fcs, list_state := some 0 }

/-- Step 4 of `add_change` (`main.rs` lines 148-228): content resolution,
diff packaging, enqueueing for approval, and the sidebar log append. -/
def contentLogic (diffFn : String → String → String) (disk : Disk)
    (s : AppState) (path : Path) (kind : ChangeKind) : AppState :=
  let file_name := fileName path
  let cache_key := path
  let old_content := (lookupA s.file_cache cache_key).getD ""
  match kind with
  | .Create | .Modify =>
    match lookupA disk path with
    | some new_content =>
      if new_content = old_content then s
      else
        let output := finalizeDiff (diffFn old_content new_content) new_content
        let s1 := { s with
          approval_queue :=
            s.approval_queue ++ [⟨cache_key, old_content, new_content, output⟩],
          modal_active := true }
        pushSidebar s1 file_name kind (some output)
    | none => pushSidebar s file_name kind none
  | .Remove =>
    if old_content ≠ "" then
      let d := "File Deleted: " ++ file_name
      let s1 := { s with
        approval_queue :=
          s.approval_queue ++ [⟨cache_key, old_content, "", d⟩],
        modal_active := true }
      pushSidebar s1 file_name kind (some d)
    else pushSidebar s file_name kind none

/-- Recording the debounce timestamp (`main.rs` line 146) and proceeding to
content resolution. -/
def afterDebounce (diffFn : String → String → String) (disk : Disk)
    (now : Nat) (s : AppState) (path : Path) (kind : ChangeKind) : AppState :=
  contentLogic diffFn disk
    { s with debounce_map := upsert s.debounce_map (fileName path, kind) now }
    path kind

/-- The debounce drop test (`main.rs` lines 141-145): a recorded instant
exists for `(file name, kind)` and is strictly less than 500 ms old. -/
def debounceDrop (s : AppState) (path : Path) (kind : ChangeKind)
    (now : Nat) : Bool :=
  match lookupA s.debounce_map (fileName path, kind) with
  | some last => now - last < 500
  | none => false

/-- The pipeline after the ignore-set check: noise filter, dotfile filter,
debounce, then content resolution (`main.rs` lines 131-228). -/
def filterPipeline (diffFn : String → String → String) (disk : Disk)
    (now : Nat) (s : AppState) (path : Path) (kind : ChangeKind) : AppState :=
  if isNoise path then s
  else if isHiddenName (fileName path) then s
  else if debounceDrop s path kind now then s
  else afterDebounce diffFn disk now s path kind

/-- Model of `AppState::add_change` (`main.rs` lines 116-229). -/
def addChange (diffFn : String → String → String) (disk : Disk) (now : Nat)
    (s : AppState) (path : Path) (kind : ChangeKind) : AppState :=
  let cache_key := path
  if cache_key ∈ s.ignore_next_write then
    { s with
      ignore_next_write := s.ignore_next_write.filter (fun q => q ≠ cache_key) }
  else filterPipeline diffFn disk now s path kind

/-- The `'y'` decision arm of the modal interception (`main.rs`
lines 505-515): pop the head, fold its new content into the cache, stay in
the modal iff the queue is still non-empty. -/
def accept (s : AppState) : AppState :=
  match s.approval_queue with
  | [] => { s with modal_active := false }
  | pending :: rest =>
    let cache :=
      if pending.new_content = "" then removeKey s.file_cache pending.path
      else upsert s.file_cache pending.path pending.new_content
    { s with approval_queue := rest, file_cache := cache,
             modal_active := !rest.isEmpty }

/-- An externally visible side effect of a decision, in program order. -/
inductive Effect
  | armIgnore (path : Path)
  | removeFile (path : Path)
  | writeFile (path : Path) (content : String)
deriving DecidableEq, Repr

/-- How a single effect acts on the disk (`armIgnore` is not a disk
mutation). -/
def applyEffect (disk : Disk) : Effect → Disk
  | .armIgnore _ => disk
  | .removeFile p => removeKey disk p
  | .writeFile p c => upsert disk p c

/-- The `'n'` decision arm of the modal interception (`main.rs`
lines 516-530): pop the head, arm the ignore set, then delete the file if the
old content was empty, else rewrite the old content.  The returned `Effect`
list is the source's statement order: the ignore-set arm (line 519) precedes
the disk mutation (lines 523/526). -/
def reject (s : AppState) : AppState × List Effect :=
  match s.approval_queue with
  | [] => ({ s with modal_active := false }, [])
  | pending :: rest =>
    ({ s with approval_queue := rest,
              ignore_next_write := pending.path :: s.ignore_next_write,
              modal_active := !rest.isEmpty },
     .armIgnore pending.path ::
       (if pending.old_content = "" then [Effect.removeFile pending.path]
        else [Effect.writeFile pending.path pending.old_content]))

/-- Key codes relevant to `run_app`'s `Event::Key` match (`main.rs`
lines 501-563); `Other` stands for any unhandled `KeyCode`. -/
inductive KeyCode
  | Char (c : Char)
  | Enter
  | Backspace
  | Tab
  | Esc
  | Up
  | Down
  | Left
  | Right
  | Other
deriving DecidableEq, Repr

/-- A keyboard event: the code and whether the CONTROL modifier is held. -/
structure KeyEvent where
  code : KeyCode
  ctrl : Bool
deriving DecidableEq, Repr

/-- UTF-8 encoding of a single character (`c.to_string().as_bytes()`). -/
def utf8Bytes (c : Char) : List Nat :=
  let n := c.toNat
  if n < 0x80 then [n]
  else if n < 0x800 then [0xC0 + n / 0x40, 0x80 + n % 0x40]
  else if n < 0x10000 then
    [0xE0 + n / 0x1000, 0x80 + (n / 0x40) % 0x40, 0x80 + n % 0x40]
  else
    [0xF0 + n / 0x40000, 0x80 + (n / 0x1000) % 0x40,
     0x80 + (n / 0x40) % 0x40, 0x80 + n % 0x40]

/-- The outcome of handling one key event: the new state, the disk after any
revert writes, the bytes written to the pty, and whether `run_app` returned
(the loop terminated). -/
structure StepResult where
  state : AppState
  disk : Disk
  written : List Nat
  quit : Bool
deriving DecidableEq, Repr

/-- The `Event::Key` arm of `run_app` (`main.rs` lines 501-564).  While the
modal is active (lines 503-534), `'y'` accepts and `'n'` rejects the head of
the queue, every other key is consumed, and — because line 533 is
`return Ok(())` — the function returns in all three cases.  Otherwise the
normal-processing match of lines 537-562 runs. -/
def handleKey (s : AppState) (disk : Disk) (k : KeyEvent) : StepResult :=
  if s.modal_active then
    match k.code with
    | .Char 'y' =>
      { state := accept s, disk := disk, written := [], quit := true }
    | .Char 'n' =>
      let r := reject s
      { state := r.1, disk := r.2.foldl applyEffect disk, written := [],
        quit := true }
    | _ => { state := s, disk := disk, written := [], quit := true }
  else
    match k.code, k.ctrl with
    | .Char 'q', true =>
      { state := s, disk := disk, written := [], quit := true }
    | .Char 'c', true =>
      { state := s, disk := disk, written := [3], quit := false }
    | .Char 'k', true =>
      { state := { s with show_diff_view := !s.show_diff_view }, disk := disk,
        written := [], quit := false }
    | .Char 'h', true =>
      { state := { s with show_sidebar := !s.show_sidebar }, disk := disk,
        written := [], quit := false }
    | .Char 'l', true =>
      { state := { s with file_changes := [], list_state := none },
        disk := disk, written := [], quit := false }
    | .Up, true =>
      let i := match s.list_state with
        | none => 0
        | some i => i - 1
      { state := { s with list_state := some i }, disk := disk, written := [],
        quit := false }
    | .Down, true =>
      let i := match s.list_state with
        | none => 0
        | some i => min (i + 1) (s.file_changes.length - 1)
      { state := { s with list_state := some i }, disk := disk, written := [],
        quit := false }
    | .Char c, _ =>
      { state := s, disk := disk, written := utf8Bytes c, quit := false }
    | .Enter, _ =>
      { state := s, disk := disk, written := [13], quit := false }
    | .Backspace, _ =>
      { state := s, disk := disk, written := [127], quit := false }
    | .Tab, _ =>
      { state := s, disk := disk, written := [9], quit := false }
    | .Esc, _ =>
      { state := s, disk := disk, written := [27], quit := false }
    | .Up, _ =>
      { state := s, disk := disk, written := [27, 91, 65], quit := false }
    | .Down, _ =>
      { state := s, disk := disk, written := [27, 91, 66], quit := false }
    | .Right, _ =>
      { state := s, disk := disk, written := [27, 91, 67], quit := false }
    | .Left, _ =>
      { state := s, disk := disk, written := [27, 91, 68], quit := false }
    | .Other, _ =>
      { state := s, disk := disk, written := [], quit := false }

/-- The startup scan's noise filter (`main.rs` line 88): a component equal to
`.git` or `target`. -/
def scanNoise (path : Path) : Bool :=
  path.any (fun c => c == ".git" || c == "target")

/-- One iteration of the startup scan loop of `AppState::new` (`main.rs`
lines 84-98): skip `.git`/`target` paths, insert the content when the read
succeeds, skip silently otherwise. -/
def scanStep (cache : Cache) (e : Path × Option String) : Cache :=
  if scanNoise e.1 then cache
  else
    match e.2 with
    | some content => upsert cache e.1 content
    | none => cache

/-- The startup scan of `AppState::new` over the walk results (each regular
file with its content when readable). -/
def scanCache (files : List (Path × Option String)) (acc : Cache) : Cache :=
  files.foldl scanStep acc

/-- The cache built by `AppState::new`. -/
def initialCache (files : List (Path × Option String)) : Cache :=
  scanCache files []

/-- The full runtime noise predicate of `add_change` steps 2
(`main.rs` lines 131-137): noise directories plus the dotfile rule. -/
def runtimeNoise (path : Path) : Bool :=
  isNoise path || isHiddenName (fileName path)

end AiTui

namespace AiTui

theorem lookupA_upsert_self {α β : Type} [DecidableEq α] (l : List (α × β))
    (k : α) (v : β) : lookupA (upsert l k v) k = some v := by
  simp [upsert, lookupA]

theorem lookupA_removeKey_ne {α β : Type} [DecidableEq α] (l : List (α × β))
    (k k' : α) (h : k ≠ k') :
    lookupA (removeKey l k) k' = lookupA l k' := by
  induction l with
  | nil => rfl
  | cons e rest ih =>
    obtain ⟨a, b⟩ := e
    by_cases hak : a = k
    · rw [removeKey, if_pos hak, ih, lookupA,
        if_neg (fun hc : a = k' => h (hak.symm.trans hc))]
    · rw [removeKey, if_neg hak, lookupA, lookupA]
      by_cases hak' : a = k'
      · rw [if_pos hak', if_pos hak']
      · rw [if_neg hak', if_neg hak', ih]

theorem lookupA_upsert_ne {α β : Type} [DecidableEq α] (l : List (α × β))
    (k k' : α) (v : β) (h : k ≠ k') :
    lookupA (upsert l k v) k' = lookupA l k' := by
  rw [upsert, lookupA, if_neg h]
  exact lookupA_removeKey_ne l k k' h

/-- The step `contentLogic` touches only the queue, the modal flag, and the sidebar
log: the cache, the ignore set, and the debounce table are untouched. -/
theorem contentLogic_preserves (f : String → String → String) (d : Disk)
    (s : AppState) (p : Path) (k : ChangeKind) :
    (contentLogic f d s p k).file_cache = s.file_cache ∧
    (contentLogic f d s p k).ignore_next_write = s.ignore_next_write ∧
    (contentLogic f d s p k).debounce_map = s.debounce_map := by
  unfold contentLogic pushSidebar
  cases k <;> dsimp only <;> (repeat' split) <;> simp

/-- The notification path `add_change` never writes to the snapshot cache. -/
theorem addChange_cache (f : String → String → String) (d : Disk) (now : Nat)
    (s : AppState) (p : Path) (k : ChangeKind) :
    (addChange f d now s p k).file_cache = s.file_cache := by
  simp only [addChange, filterPipeline, afterDebounce]
  repeat' split
  any_goals rfl
  exact (contentLogic_preserves f d _ p k).1

/-- The decision `reject` never writes to the snapshot cache. -/
theorem reject_cache (s : AppState) :
    (reject s).1.file_cache = s.file_cache := by
  unfold reject
  cases s.approval_queue <;> rfl

/-- When the incoming path is not armed in the ignore set, `add_change`
leaves the ignore set unchanged. -/
theorem addChange_ignore (f : String → String → String) (d : Disk) (now : Nat)
    (s : AppState) (p : Path) (k : ChangeKind) (h : p ∉ s.ignore_next_write) :
    (addChange f d now s p k).ignore_next_write = s.ignore_next_write := by
  simp only [addChange, filterPipeline, afterDebounce, h, if_false]
  repeat' split
  any_goals rfl
  exact (contentLogic_preserves f d _ p k).2.1


/-- Sample pending modification (the spec's `main.txt` scenario). -/
def mainTxtChange : PendingChange :=
  ⟨["main.txt"], "hello", "hello world", "+hello world"⟩

/-- Sample pending deletion. -/
def mainTxtDeletion : PendingChange :=
  ⟨["main.txt"], "hello world", "", "File Deleted: main.txt"⟩

/-- A concrete state mid-review: modal active, two queued changes. -/
def reviewState : AppState :=
  { file_changes := [], debounce_map := [], list_state := none,
    show_sidebar := true, file_cache := [(["main.txt"], "hello")],
    approval_queue := [mainTxtChange, mainTxtDeletion],
    ignore_next_write := [], modal_active := true, show_diff_view := false }

/-- A concrete idle state with one armed ignore entry. -/
def armedState : AppState :=
  { file_changes := [], debounce_map := [], list_state := none,
    show_sidebar := true, file_cache := [], approval_queue := [],
    ignore_next_write := [["a.txt"]], modal_active := false,
    show_diff_view := false }

/-- C5: the snapshot cache is never mutated by the notification-processing
path: `add_change` leaves it untouched on every input, and `reject` does
too, so after the startup scan only an `accept` decision writes to the
cache — it never holds the content of a pending, undecided change. -/
theorem snapshotCache_mutated_only_by_accept
    (f : String → String → String) (d : Disk) (now : Nat) (s : AppState)
    (p : Path) (k : ChangeKind) :
    (addChange f d now s p k).file_cache = s.file_cache ∧
    (reject s).1.file_cache = s.file_cache :=
  ⟨addChange_cache f d now s p k, reject_cache s⟩

/-- C4: a notification whose canonical path is armed in the ignore set is
dropped (queue and cache untouched) and the entry is consumed exactly once:
it is removed, and a subsequent notification for the same path goes through
the normal filter pipeline instead of being swallowed. -/
theorem ignoreSet_consumed_exactly_once
    (f f2 : String → String → String) (d d2 : Disk) (now now2 : Nat)
    (s : AppState) (p : Path) (k k2 : ChangeKind)
    (h : p ∈ s.ignore_next_write) :
    (addChange f d now s p k).approval_queue = s.approval_queue ∧
    (addChange f d now s p k).file_cache = s.file_cache ∧
    p ∉ (addChange f d now s p k).ignore_next_write ∧
    addChange f2 d2 now2 (addChange f d now s p k) p k2 =
      filterPipeline f2 d2 now2 (addChange f d now s p k) p k2 := by
  have h1 : addChange f d now s p k =
      { s with ignore_next_write :=
          s.ignore_next_write.filter (fun q => q ≠ p) } := by
    simp [addChange, h]
  have h2 : p ∉ (addChange f d now s p k).ignore_next_write := by
    rw [h1]
    simp
  refine ⟨by rw [h1], by rw [h1], h2, ?_⟩
  rw [addChange]
  simp only [h2, if_false]

/-- C4 witness: the armed entry for `a.txt` swallows one notification and is
then gone. -/
theorem ignoreSet_consumed_exactly_once_witness :
    ["a.txt"] ∉ (addChange (fun _ n => n) [] 0 armedState ["a.txt"]
      ChangeKind.Modify).ignore_next_write :=
  (ignoreSet_consumed_exactly_once (fun _ n => n) (fun _ n => n) [] [] 0 0
    armedState ["a.txt"] ChangeKind.Modify ChangeKind.Modify
    (by decide)).2.2.1

/-- C2: `reject` pops the head of the queue, arms the ignore set for its
canonical path before any disk mutation (the effect trace begins with the
arm), then deletes the file when the old content is empty and otherwise
rewrites the old content to disk; the modal stays up iff the queue is still
non-empty. -/
theorem reject_pops_arms_then_reverts (s : AppState) (p : PendingChange)
    (rest : List PendingChange) (h : s.approval_queue = p :: rest) :
    (reject s).1.approval_queue = rest ∧
    (reject s).1.ignore_next_write = p.path :: s.ignore_next_write ∧
    (reject s).2 = Effect.armIgnore p.path ::
      (if p.old_content = "" then [Effect.removeFile p.path]
       else [Effect.writeFile p.path p.old_content]) ∧
    (∀ disk : Disk, (reject s).2.foldl applyEffect disk =
      if p.old_content = "" then removeKey disk p.path
      else upsert disk p.path p.old_content) ∧
    ((reject s).1.modal_active = false ↔ rest = []) := by
  unfold reject
  rw [h]
  dsimp only
  refine ⟨rfl, rfl, rfl, ?_, ?_⟩
  · intro disk
    by_cases hc : p.old_content = ""
    · simp [hc, applyEffect]
    · simp [hc, applyEffect]
  · cases rest <;> simp

/-- C2 witness: rejecting the pending `main.txt` modification arms the
ignore set and schedules the revert write after the arm. -/
theorem reject_pops_arms_then_reverts_witness :
    (reject reviewState).1.approval_queue = [mainTxtDeletion] ∧
    (reject reviewState).1.ignore_next_write =
      mainTxtChange.path :: reviewState.ignore_next_write :=
  ⟨(reject_pops_arms_then_reverts reviewState mainTxtChange [mainTxtDeletion]
      rfl).1,
   (reject_pops_arms_then_reverts reviewState mainTxtChange [mainTxtDeletion]
      rfl).2.1⟩

/-- C3: `accept` pops the head of the queue and folds its new content into
the snapshot cache (removing the entry when the new content is empty,
inserting/overwriting otherwise); it performs no disk write (the disk after
a `'y'` keystroke is unchanged); afterwards the modal is down iff the queue
is empty, and otherwise the next head is exposed. -/
theorem accept_updates_cache_only (s : AppState) (p : PendingChange)
    (rest : List PendingChange) (h : s.approval_queue = p :: rest) :
    (accept s).approval_queue = rest ∧
    (accept s).file_cache =
      (if p.new_content = "" then removeKey s.file_cache p.path
       else upsert s.file_cache p.path p.new_content) ∧
    (∀ (disk : Disk) (ctrl : Bool), s.modal_active = true →
      (handleKey s disk ⟨KeyCode.Char 'y', ctrl⟩).disk = disk ∧
      (handleKey s disk ⟨KeyCode.Char 'y', ctrl⟩).state = accept s) ∧
    ((accept s).modal_active = false ↔ rest = []) ∧
    (accept s).approval_queue.head? = rest.head? := by
  have ha : accept s =
      { s with approval_queue := rest,
               file_cache :=
                 if p.new_content = "" then removeKey s.file_cache p.path
                 else upsert s.file_cache p.path p.new_content,
               modal_active := !rest.isEmpty } := by
    unfold accept
    rw [h]
  refine ⟨by rw [ha], by rw [ha], ?_, ?_, by rw [ha]⟩
  · intro disk ctrl hm
    constructor <;> simp [handleKey, hm]
  · rw [ha]
    cases rest <;> simp

/-- C3 witness: accepting the spec's `main.txt` scenario updates the cache
to the new content and keeps reviewing the queued deletion. -/
theorem accept_updates_cache_only_witness :
    (accept reviewState).file_cache =
      (if mainTxtChange.new_content = "" then
        removeKey reviewState.file_cache mainTxtChange.path
       else upsert reviewState.file_cache mainTxtChange.path
         mainTxtChange.new_content) ∧
    ((accept reviewState).modal_active = false ↔
      ([mainTxtDeletion] : List PendingChange) = []) :=
  ⟨(accept_updates_cache_only reviewState mainTxtChange [mainTxtDeletion]
      rfl).2.1,
   (accept_updates_cache_only reviewState mainTxtChange [mainTxtDeletion]
      rfl).2.2.2.1⟩

/-- C1 (code behaviour at the failing input): contrary to the claim, every
key event received while the modal is active makes `run_app` return — line
533 of `main.rs` is an unconditional `return Ok(())` inside the modal
interception — so the event loop terminates on any keystroke during review,
including a `'y'` that still leaves queued changes. -/
theorem modal_keystroke_terminates_loop (s : AppState) (d : Disk)
    (k : KeyEvent) (h : s.modal_active = true) :
    (handleKey s d k).quit = true := by
  simp only [handleKey, h, if_true]
  split <;> rfl

/-- C1 witness: pressing `'y'` on the first of two queued changes exits the
loop even though a change is still queued for review. -/
theorem modal_keystroke_terminates_loop_witness :
    (handleKey reviewState [] ⟨KeyCode.Char 'y', false⟩).quit = true :=
  modal_keystroke_terminates_loop reviewState [] ⟨KeyCode.Char 'y', false⟩
    rfl


/-- A concrete idle state whose cache matches the disk content `x` for
`b.txt`. -/
def syncedState : AppState :=
  { file_changes := [], debounce_map := [], list_state := none,
    show_sidebar := true, file_cache := [(["b.txt"], "x")],
    approval_queue := [], ignore_next_write := [], modal_active := false,
    show_diff_view := false }

/-- A concrete idle state with a debounce timestamp recorded at instant 0
for `("b.txt", Modify)`. -/
def debouncedState : AppState :=
  { file_changes := [], debounce_map := [(("b.txt", ChangeKind.Modify), 0)],
    list_state := none, show_sidebar := true, file_cache := [],
    approval_queue := [], ignore_next_write := [], modal_active := false,
    show_diff_view := false }

/-- When the disk content equals the cached content, the content-resolution
step is a complete no-op (`main.rs` lines 158-161). -/
theorem contentLogic_noop (f : String → String → String) (d : Disk)
    (s : AppState) (p : Path) (k : ChangeKind) (c : String)
    (hk : k = ChangeKind.Create ∨ k = ChangeKind.Modify)
    (hd : lookupA d p = some c)
    (hc : (lookupA s.file_cache p).getD "" = c) :
    contentLogic f d s p k = s := by
  rcases hk with hk | hk <;> subst hk <;> simp [contentLogic, hd, hc]

/-- A Create/Modify notification whose disk content equals the cached
content never enqueues and never touches the cache, whatever filter branch
it takes. -/
theorem addChange_same_content (f : String → String → String) (d : Disk)
    (now : Nat) (s : AppState) (p : Path) (k : ChangeKind) (c : String)
    (hk : k = ChangeKind.Create ∨ k = ChangeKind.Modify)
    (hd : lookupA d p = some c)
    (hc : (lookupA s.file_cache p).getD "" = c) :
    (addChange f d now s p k).approval_queue = s.approval_queue ∧
    (addChange f d now s p k).file_cache = s.file_cache := by
  unfold addChange filterPipeline afterDebounce
  dsimp only
  split
  · exact ⟨rfl, rfl⟩
  · split
    · exact ⟨rfl, rfl⟩
    · split
      · exact ⟨rfl, rfl⟩
      · split
        · exact ⟨rfl, rfl⟩
        · rw [contentLogic_noop f d
            { s with debounce_map := upsert s.debounce_map (fileName p, k) now }
            p k c hk hd hc]
          exact ⟨rfl, rfl⟩

/-- C6: a Create/Modify notification that reads content identical to the
cached content (missing entry = empty string) is a no-op — nothing is
enqueued and the cache is untouched — and processing the same content a
second time still enqueues nothing. -/
theorem sameContent_noop_idempotent (f f2 : String → String → String)
    (d : Disk) (now now2 : Nat) (s : AppState) (p : Path) (k : ChangeKind)
    (c : String)
    (hk : k = ChangeKind.Create ∨ k = ChangeKind.Modify)
    (hd : lookupA d p = some c)
    (hc : (lookupA s.file_cache p).getD "" = c) :
    (addChange f d now s p k).approval_queue = s.approval_queue ∧
    (addChange f d now s p k).file_cache = s.file_cache ∧
    (addChange f2 d now2 (addChange f d now s p k) p k).approval_queue =
      s.approval_queue := by
  obtain ⟨h1, h2⟩ := addChange_same_content f d now s p k c hk hd hc
  refine ⟨h1, h2, ?_⟩
  have hc2 : (lookupA (addChange f d now s p k).file_cache p).getD "" = c := by
    rw [h2]
    exact hc
  obtain ⟨h3, _⟩ := addChange_same_content f2 d now2 _ p k c hk hd hc2
  rw [h3, h1]

/-- C6 witness: `b.txt` already has content `x` in the cache; two Modify
notifications (600 ms apart, so the second passes the debounce) both
evaluate to no-ops. -/
theorem sameContent_noop_idempotent_witness :
    (addChange (fun _ n => n) [(["b.txt"], "x")] 600
      (addChange (fun _ n => n) [(["b.txt"], "x")] 0 syncedState ["b.txt"]
        ChangeKind.Modify) ["b.txt"] ChangeKind.Modify).approval_queue =
      syncedState.approval_queue :=
  (sameContent_noop_idempotent (fun _ n => n) (fun _ n => n)
    [(["b.txt"], "x")] 0 600 syncedState ["b.txt"] ChangeKind.Modify "x"
    (Or.inr rfl) (by decide) (by decide)).2.2

/-- The pipeline `add_change` drops a notification outright (state unchanged)
when the debounce test fires and the earlier filters pass. -/
theorem addChange_debounce_drop (f : String → String → String) (d : Disk)
    (now : Nat) (s : AppState) (p : Path) (k : ChangeKind)
    (hig : p ∉ s.ignore_next_write) (hn : isNoise p = false)
    (hh : isHiddenName (fileName p) = false)
    (hdd : debounceDrop s p k now = true) :
    addChange f d now s p k = s := by
  simp [addChange, filterPipeline, hig, hn, hh, hdd]

/-- C7: with a recorded debounce timestamp `t` for `(base name, kind)`, a
notification arriving strictly within 500 ms is dropped outright (the state
is exactly unchanged), while one arriving at 500 ms or later proceeds to
content resolution and re-records its own timestamp. -/
theorem debounce_window (f : String → String → String) (d : Disk)
    (now : Nat) (s : AppState) (p : Path) (k : ChangeKind) (t : Nat)
    (hig : p ∉ s.ignore_next_write)
    (hn : isNoise p = false)
    (hh : isHiddenName (fileName p) = false)
    (hl : lookupA s.debounce_map (fileName p, k) = some t)
    (hle : t ≤ now) :
    (now - t < 500 → addChange f d now s p k = s) ∧
    (500 ≤ now - t →
      addChange f d now s p k = afterDebounce f d now s p k ∧
      lookupA (addChange f d now s p k).debounce_map (fileName p, k) =
        some now) := by
  constructor
  · intro hlt
    have hdd : debounceDrop s p k now = true := by
      simp [debounceDrop, hl, hlt]
    exact addChange_debounce_drop f d now s p k hig hn hh hdd
  · intro hge
    have hdd : debounceDrop s p k now = false := by
      simp only [debounceDrop, hl]
      simp
      omega
    have he : addChange f d now s p k = afterDebounce f d now s p k := by
      simp [addChange, filterPipeline, hig, hn, hh, hdd]
    refine ⟨he, ?_⟩
    rw [he]
    unfold afterDebounce
    rw [(contentLogic_preserves f d _ p k).2.2]
    exact lookupA_upsert_self _ _ _

/-- C7 witness: with a timestamp at instant 0, a Modify for `b.txt` at
100 ms is dropped with no state change at all. -/
theorem debounce_window_witness :
    addChange (fun _ n => n) [] 100 debouncedState ["b.txt"]
      ChangeKind.Modify = debouncedState :=
  (debounce_window (fun _ n => n) [] 100 debouncedState ["b.txt"]
    ChangeKind.Modify 0 (by decide) (by decide) (by decide) (by decide)
    (by decide)).1 (by decide)

/-- C10: the debounce key is (base file name, kind), not the canonical
path — after a change to `p1` is recorded at instant `t`, a notification
for a distinct path `p2` with the same base name and kind arriving within
500 ms is dropped entirely. -/
theorem debounce_keyed_by_basename (f f2 : String → String → String)
    (d d2 : Disk) (t now : Nat) (s : AppState) (p1 p2 : Path)
    (k : ChangeKind)
    (hneq : p1 ≠ p2) (hname : fileName p1 = fileName p2)
    (hig1 : p1 ∉ s.ignore_next_write)
    (hn1 : isNoise p1 = false)
    (hh1 : isHiddenName (fileName p1) = false)
    (hdd1 : debounceDrop s p1 k t = false)
    (hig2 : p2 ∉ s.ignore_next_write)
    (hn2 : isNoise p2 = false)
    (hwin : now - t < 500) :
    addChange f2 d2 now (addChange f d t s p1 k) p2 k =
      addChange f d t s p1 k := by
  have he : addChange f d t s p1 k = afterDebounce f d t s p1 k := by
    simp [addChange, filterPipeline, hig1, hn1, hh1, hdd1]
  have hig : (addChange f d t s p1 k).ignore_next_write =
      s.ignore_next_write := addChange_ignore f d t s p1 k hig1
  have hdb : lookupA (addChange f d t s p1 k).debounce_map
      (fileName p2, k) = some t := by
    rw [← hname, he]
    unfold afterDebounce
    rw [(contentLogic_preserves f d _ p1 k).2.2]
    exact lookupA_upsert_self _ _ _
  have hdd2 : debounceDrop (addChange f d t s p1 k) p2 k now = true := by
    simp [debounceDrop, hdb, hwin]
  have hig2' : p2 ∉ (addChange f d t s p1 k).ignore_next_write := by
    rw [hig]
    exact hig2
  have hh2 : isHiddenName (fileName p2) = false := by
    rw [← hname]
    exact hh1
  exact addChange_debounce_drop f2 d2 now _ p2 k hig2' hn2 hh2 hdd2

/-- C10 witness: a Modify to `d1/same.txt` at instant 0 suppresses a Modify
to the different file `d2/same.txt` arriving 100 ms later. -/
theorem debounce_keyed_by_basename_witness :
    addChange (fun _ n => n) [] 100
      (addChange (fun _ n => n) [] 0 syncedState ["d1", "same.txt"]
        ChangeKind.Modify) ["d2", "same.txt"] ChangeKind.Modify =
      addChange (fun _ n => n) [] 0 syncedState ["d1", "same.txt"]
        ChangeKind.Modify :=
  debounce_keyed_by_basename (fun _ n => n) (fun _ n => n) [] [] 0 100
    syncedState ["d1", "same.txt"] ["d2", "same.txt"] ChangeKind.Modify
    (by decide) rfl (by decide) (by decide) (by decide) (by decide)
    (by decide) (by decide) (by decide)


/-- A concrete idle state (modal inactive), all collections empty. -/
def idleState : AppState :=
  { file_changes := [], debounce_map := [], list_state := none,
    show_sidebar := true, file_cache := [], approval_queue := [],
    ignore_next_write := [], modal_active := false, show_diff_view := false }

/-- C8 counterexample: while Idle, Ctrl+D is NOT translated to byte 0x04 —
no arm of the key match handles it, so it falls through to the generic
character arm and transmits the literal byte 0x64 (`'d'`). -/
theorem ctrlD_not_mapped_counterexample :
    (handleKey idleState [] ⟨KeyCode.Char 'd', true⟩).written = [100] ∧
    ([100] : List Nat) ≠ [4] := by decide

/-- C8 amended: while Idle the fixed mapping holds for every listed key
except Ctrl+D: Ctrl+C → 0x03, Enter → 0x0D, Backspace → 0x7F, Tab → 0x09,
Escape → 0x1B, arrows → `ESC [ A/B/C/D`, and Ctrl+Q quits without writing;
Ctrl+D has no arm of its own and is forwarded as the plain byte 0x64. -/
theorem idle_key_mapping (s : AppState) (d : Disk)
    (hm : s.modal_active = false) :
    (handleKey s d ⟨KeyCode.Char 'c', true⟩).written = [3] ∧
    (handleKey s d ⟨KeyCode.Char 'd', true⟩).written = [100] ∧
    (handleKey s d ⟨KeyCode.Enter, false⟩).written = [13] ∧
    (handleKey s d ⟨KeyCode.Backspace, false⟩).written = [127] ∧
    (handleKey s d ⟨KeyCode.Tab, false⟩).written = [9] ∧
    (handleKey s d ⟨KeyCode.Esc, false⟩).written = [27] ∧
    (handleKey s d ⟨KeyCode.Up, false⟩).written = [27, 91, 65] ∧
    (handleKey s d ⟨KeyCode.Down, false⟩).written = [27, 91, 66] ∧
    (handleKey s d ⟨KeyCode.Right, false⟩).written = [27, 91, 67] ∧
    (handleKey s d ⟨KeyCode.Left, false⟩).written = [27, 91, 68] ∧
    (handleKey s d ⟨KeyCode.Char 'q', true⟩).quit = true ∧
    (handleKey s d ⟨KeyCode.Char 'q', true⟩).written = [] := by
  refine ⟨?_, ?_, ?_, ?_, ?_, ?_, ?_, ?_, ?_, ?_, ?_, ?_⟩ <;>
    simp [handleKey, hm, utf8Bytes]

/-- C8 witness: the amended mapping evaluated on the concrete idle state. -/
theorem idle_key_mapping_witness :
    (handleKey idleState [] ⟨KeyCode.Char 'c', true⟩).written = [3] ∧
    (handleKey idleState [] ⟨KeyCode.Char 'd', true⟩).written = [100] :=
  ⟨(idle_key_mapping idleState [] rfl).1,
   (idle_key_mapping idleState [] rfl).2.1⟩


/-- A noise-excluded walk entry leaves the cache unchanged. -/
theorem scanStep_noisy (acc : Cache) (e : Path × Option String)
    (h : scanNoise e.1 = true) : scanStep acc e = acc := by
  simp [scanStep, h]

/-- An unreadable walk entry is skipped silently. -/
theorem scanStep_unreadable (acc : Cache) (q : Path)
    (h : scanNoise q = false) : scanStep acc (q, none) = acc := by
  simp [scanStep, h]

/-- A readable, non-excluded walk entry is inserted into the cache. -/
theorem scanStep_readable (acc : Cache) (q : Path) (c : String)
    (h : scanNoise q = false) : scanStep acc (q, some c) = upsert acc q c := by
  simp [scanStep, h]

/-- Whether the startup-scan cache has an entry for `p`: exactly the
readable walked files without a `.git`/`target` component. -/
theorem scanCache_isSome (files : List (Path × Option String)) (acc : Cache)
    (p : Path) :
    (lookupA (scanCache files acc) p).isSome = true ↔
      ((lookupA acc p).isSome = true ∨
       (scanNoise p = false ∧ ∃ c, (p, some c) ∈ files)) := by
  induction files generalizing acc with
  | nil => simp [scanCache]
  | cons e rest ih =>
    obtain ⟨q, c?⟩ := e
    rw [scanCache, List.foldl_cons, ← scanCache, ih]
    by_cases hq : scanNoise q = true
    · rw [scanStep_noisy _ _ hq]
      constructor
      · rintro (h | ⟨hn, c, hc⟩)
        · exact Or.inl h
        · exact Or.inr ⟨hn, c, List.mem_cons_of_mem _ hc⟩
      · rintro (h | ⟨hn, c, hc⟩)
        · exact Or.inl h
        · rcases List.mem_cons.mp hc with he | hrest
          · rw [Prod.mk.injEq] at he
            obtain ⟨hp, _⟩ := he
            subst hp
            rw [hn] at hq
            cases hq
          · exact Or.inr ⟨hn, c, hrest⟩
    · rw [Bool.not_eq_true] at hq
      cases c? with
      | none =>
        rw [scanStep_unreadable _ _ hq]
        constructor
        · rintro (h | ⟨hn, c, hc⟩)
          · exact Or.inl h
          · exact Or.inr ⟨hn, c, List.mem_cons_of_mem _ hc⟩
        · rintro (h | ⟨hn, c, hc⟩)
          · exact Or.inl h
          · rcases List.mem_cons.mp hc with he | hrest
            · rw [Prod.mk.injEq] at he
              exact absurd he.2 (by simp)
            · exact Or.inr ⟨hn, c, hrest⟩
      | some content =>
        rw [scanStep_readable _ _ _ hq]
        by_cases hpq : p = q
        · subst hpq
          rw [lookupA_upsert_self]
          constructor
          · intro _
            exact Or.inr ⟨hq, content, List.mem_cons_self _ _⟩
          · intro _
            exact Or.inl rfl
        · rw [lookupA_upsert_ne _ _ _ _ (fun hc => hpq hc.symm)]
          constructor
          · rintro (h | ⟨hn, c, hc⟩)
            · exact Or.inl h
            · exact Or.inr ⟨hn, c, List.mem_cons_of_mem _ hc⟩
          · rintro (h | ⟨hn, c, hc⟩)
            · exact Or.inl h
            · rcases List.mem_cons.mp hc with he | hrest
              · rw [Prod.mk.injEq] at he
                exact absurd he.1 hpq
              · exact Or.inr ⟨hn, c, hrest⟩

/-- The scan leaves entries untouched for a path it never walks. -/
theorem scanCache_not_mem (files : List (Path × Option String)) (acc : Cache)
    (p : Path) (h : p ∉ files.map Prod.fst) :
    lookupA (scanCache files acc) p = lookupA acc p := by
  revert h
  induction files generalizing acc with
  | nil =>
    intro h
    rfl
  | cons e rest ih =>
    intro h
    obtain ⟨q, c?⟩ := e
    have hpq : p ≠ q := by
      intro hc
      exact h (by simp [hc])
    have hrest : p ∉ rest.map Prod.fst := by
      intro hc
      exact h (by simp [hc])
    rw [scanCache, List.foldl_cons, ← scanCache,
      ih (scanStep acc (q, c?)) hrest]
    by_cases hq : scanNoise q = true
    · rw [scanStep_noisy _ _ hq]
    · rw [Bool.not_eq_true] at hq
      cases c? with
      | none => rw [scanStep_unreadable _ _ hq]
      | some content =>
        rw [scanStep_readable _ _ _ hq,
          lookupA_upsert_ne _ _ _ _ (fun hc => hpq hc.symm)]

/-- The scanned cache holds the walked content of each readable,
non-excluded file (paths walked at most once). -/
theorem scanCache_content (files : List (Path × Option String)) (acc : Cache)
    (p : Path) (c : String) (hnd : (files.map Prod.fst).Nodup)
    (hmem : (p, some c) ∈ files) (hn : scanNoise p = false) :
    lookupA (scanCache files acc) p = some c := by
  revert hnd hmem
  induction files generalizing acc with
  | nil =>
    intro hnd hmem
    cases hmem
  | cons e rest ih =>
    intro hnd hmem
    obtain ⟨q, c?⟩ := e
    rw [scanCache, List.foldl_cons, ← scanCache]
    rcases List.mem_cons.mp hmem with he | hrest
    · rw [Prod.mk.injEq] at he
      obtain ⟨hp, hc⟩ := he
      subst hp
      subst hc
      have hnotin : p ∉ rest.map Prod.fst := by
        rw [List.map_cons, List.nodup_cons] at hnd
        exact hnd.1
      rw [scanCache_not_mem rest _ p hnotin, scanStep_readable _ _ _ hn,
        lookupA_upsert_self]
    · have hnd' : (rest.map Prod.fst).Nodup := by
        rw [List.map_cons, List.nodup_cons] at hnd
        exact hnd.2
      exact ih _ hnd' hrest

/-- C9 counterexample: the startup scan does NOT exclude the same noise
paths as the runtime change filter — it keeps `node_modules/a.js` and the
dotfile `.env` in the cache although the runtime filter drops both. -/
theorem scan_filter_mismatch_counterexample :
    lookupA (initialCache [(["node_modules", "a.js"], some "x"),
      ([".env"], some "y")]) ["node_modules", "a.js"] = some "x" ∧
    lookupA (initialCache [(["node_modules", "a.js"], some "x"),
      ([".env"], some "y")]) [".env"] = some "y" ∧
    runtimeNoise ["node_modules", "a.js"] = true ∧
    runtimeNoise [".env"] = true := by decide

/-- C9 amended: the startup scan populates the cache with the content of
every readable regular file keyed by canonical path, excluding only paths
with a `.git` or `target` component (NOT the runtime filter's
`node_modules` and dot-prefixed names), and silently skipping unreadable
files: a path has a cache entry iff it is non-excluded and was walked with
readable content, and that entry holds the walked content. -/
theorem startup_scan_spec (files : List (Path × Option String)) :
    (∀ p : Path, (lookupA (initialCache files) p).isSome = true ↔
      (scanNoise p = false ∧ ∃ c, (p, some c) ∈ files)) ∧
    (∀ (p : Path) (c : String), (files.map Prod.fst).Nodup →
      (p, some c) ∈ files → scanNoise p = false →
      lookupA (initialCache files) p = some c) := by
  constructor
  · intro p
    rw [initialCache, scanCache_isSome]
    simp [lookupA]
  · intro p c hnd hm hn
    exact scanCache_content files [] p c hnd hm hn

/-- C9 witness: the amended scan behaviour on a concrete walk containing a
normal file, a `.git` file and an unreadable file. -/
theorem startup_scan_spec_witness :
    lookupA (initialCache [(["a.txt"], some "x"), ([".git", "cfg"], some "g"),
      (["locked.txt"], none)]) ["a.txt"] = some "x" :=
  (startup_scan_spec [(["a.txt"], some "x"), ([".git", "cfg"], some "g"),
    (["locked.txt"], none)]).2 ["a.txt"] "x" (by decide) (by decide)
    (by decide)

end AiTui
